import Mathlib

/-
Shallow embedding of the coordination logic of the Shatranj chess app
(src/src/App.jsx and the matchmaking cloud function in src/unnamed/part_000).
Times are modelled as integer seconds; the external rules engine (chess.js)
is modelled abstractly by the record an accepted move returns, since move
legality is delegated wholesale to that engine.
-/

namespace Shatranj

/-- A player record as stored on game documents: `{ uid, email }`. -/
structure Player where
  uid : String
  email : String
deriving DecidableEq, Repr

/-- Game document status: 'waiting' | 'active' | 'finished'. -/
inductive Status where
  | waiting
  | active
  | finished
deriving DecidableEq, Repr

/-- The two player slots, stored as the strings 'player1' / 'player2'. -/
inductive PlayerKey where
  | player1
  | player2
deriving DecidableEq, Repr

/-- The opposite slot (`opponentPlayerKey` in GameActions). -/
def PlayerKey.other : PlayerKey → PlayerKey
  | .player1 => .player2
  | .player2 => .player1

/-- One entry of the `moves` array:
`{ san, from, to, time, moveNumber }`. -/
structure MoveEntry where
  san : String
  fromSq : String
  toSq : String
  time : Int
  moveNumber : Nat
deriving DecidableEq, Repr

/-- One ICE candidate in `webrtc_signals.iceCandidates`, tagged with the
publishing user's uid. -/
structure IceCandidate where
  payload : String
  uid : String
deriving DecidableEq, Repr

/-- The `webrtc_signals` map on a game document. -/
structure WebrtcSignals where
  offer : Option String
  answer : Option String
  iceCandidates : List IceCandidate
deriving DecidableEq, Repr

/-- `capturedPieces: { w: [...], b: [...] }`. -/
structure Captured where
  w : List String
  b : List String
deriving DecidableEq, Repr

/-- A `games/{id}` document (fields as written by `handleCreateGame`,
`makeMove`, `handleTimeout`, `GameActions`, `handleRematch`, and the
matchmaking cloud function). -/
structure GameDoc where
  mode : String
  timeControl : Int
  player1 : Option Player
  player2 : Option Player
  playerIds : List String
  fen : String
  moves : List MoveEntry
  chatMessages : List String
  capturedPieces : Captured
  status : Status
  winner : Option Player
  winReason : Option String
  drawOffer : Option PlayerKey
  rematchOffer : Option PlayerKey
  rematchedGameId : Option String
  webrtc : WebrtcSignals
  createdAt : Int
  player1Time : Int
  player2Time : Int
  lastMoveTimestamp : Int
  lastMove : Option MoveEntry
deriving DecidableEq, Repr

/-- The result record chess.js returns for an accepted move, together with
the queries the code performs on the post-move position
(`isGameOver`, `isCheckmate`, promotion flag `p` in `move.flags`). -/
structure EngineMove where
  san : String
  fromSq : String
  toSq : String
  colorWhite : Bool
  captured : Option String
  newFen : String
  isGameOver : Bool
  isCheckmate : Bool
  promoFlag : Bool
deriving DecidableEq, Repr

def modeOnline : String := "online"

def modeOffline : String := "offline"

def modeComputer : String := "computer"

def reasonCheckmate : String := "Checkmate"

def reasonDraw : String := "Draw"

def reasonTimeout : String := "Timeout"

def reasonResignation : String := "Resignation"

def reasonDrawAgreement : String := "Draw by Agreement"

/-- `new Chess().fen()`: the standard initial position. -/
def initialFen : String := "rnbqkbnr/pppppppp/8/8/8/8/PPPPPPPP/RNBQKBNR w KQkq - 0 1"

/-- `player?.uid` on a possibly-missing player record. -/
def playerUid : Option Player → String
  | some p => p.uid
  | none => ""

/-- `handleCreateGame` (App.jsx lines 149-176): the initial game document. -/
def createGameDoc (u : Player) (tc : Int) (now : Int) : GameDoc where
  mode := modeOnline
  timeControl := tc
  player1 := some u
  player2 := none
  playerIds := [u.uid]
  fen := initialFen
  moves := []
  chatMessages := []
  capturedPieces := ⟨[], []⟩
  status := Status.waiting
  winner := none
  winReason := none
  drawOffer := none
  rematchOffer := none
  rematchedGameId := none
  webrtc := ⟨none, none, []⟩
  createdAt := now
  player1Time := tc
  player2Time := tc
  lastMoveTimestamp := now
  lastMove := none

/-- `handleJoinGame` (App.jsx lines 178-191): after `getDoc` confirms the
document exists, an `updateDoc` unconditionally fills `player2`, rebuilds
`playerIds`, sets `status: 'active'` and stamps `lastMoveTimestamp`.
Nothing is re-verified: the write is not a transaction and does not check
that `status` is still 'waiting', that `player2` is still null, or that
the joiner is not `player1`. -/
def handleJoinGame (g : GameDoc) (u : Player) (now : Int) : GameDoc :=
  { g with
    player2 := some u
    playerIds := [playerUid g.player1, u.uid]
    status := Status.active
    lastMoveTimestamp := now }

/-- `result.color === 'w' ? gameData.player1 : gameData.player2`. -/
def moverPlayer (g : GameDoc) (colorWhite : Bool) : Option Player :=
  if colorWhite then g.player1 else g.player2

/-- The `capturedPieces` update in `makeMove`. -/
def applyCapture (c : Captured) (em : EngineMove) : Captured :=
  match em.captured with
  | none => c
  | some p => if em.colorWhite then { c with w := c.w ++ [p] } else { c with b := c.b ++ [p] }

/-- `makeMove` (App.jsx lines 1021-1115). The chess.js call
`gameCopy.move(move)` is the `r` argument: `none` models a rejected move
(the function returns null before any write); `some em` carries the result
record plus the post-move position queries. On acceptance, the online
branch writes one `updateDoc` with the new fen, the appended move entry
(`moveNumber` = previous length + 1), the mover's clock charged with the
elapsed time, `drawOffer: null`, and the terminal status/winner/winReason;
the local branch applies the analogous in-memory update. -/
def makeMove (g : GameDoc) (r : Option EngineMove) (now : Int) : Option GameDoc :=
  match r with
  | none => none
  | some em =>
    let newStatus := if em.isGameOver then Status.finished else Status.active
    let newWinner : Option Player :=
      if em.isGameOver ∧ em.isCheckmate then moverPlayer g em.colorWhite else none
    let newReason : Option String :=
      if em.isGameOver then
        (if em.isCheckmate then some reasonCheckmate else some reasonDraw)
      else none
    let newCaptured := applyCapture g.capturedPieces em
    let mvNum := g.moves.length + 1
    if g.mode = modeOnline then
      let timeSince := now - g.lastMoveTimestamp
      let mv : MoveEntry := ⟨em.san, em.fromSq, em.toSq, timeSince, mvNum⟩
      some { g with
        fen := em.newFen
        moves := g.moves ++ [mv]
        capturedPieces := newCaptured
        status := newStatus
        winner := newWinner
        winReason := newReason
        lastMoveTimestamp := now
        lastMove := some mv
        drawOffer := none
        player1Time := if em.colorWhite then g.player1Time - timeSince else g.player1Time
        player2Time := if em.colorWhite then g.player2Time else g.player2Time - timeSince }
    else
      let mv : MoveEntry := ⟨em.san, em.fromSq, em.toSq, 0, mvNum⟩
      some { g with
        fen := em.newFen
        moves := g.moves ++ [mv]
        capturedPieces := newCaptured
        status := newStatus
        winner := newWinner
        winReason := newReason
        lastMove := some mv }

/-- `handleTimeout` (App.jsx lines 1117-1138): a silent no-op when the game
is already finished; otherwise finishes the game crediting the non-expired
player with reason 'Timeout' (the online and local branches write the same
three fields). `timedOutWhite` is the `timedOutPlayer === 'white'` test. -/
def handleTimeout (g : GameDoc) (timedOutWhite : Bool) : Option GameDoc :=
  if g.status = Status.finished then none
  else
    some { g with
      status := Status.finished
      winner := if timedOutWhite then g.player2 else g.player1
      winReason := some reasonTimeout }

/-- One tick of the `GameClocks` interval (App.jsx lines 361-390).
`dispW`/`dispB` are the displayed times held in component state (reset to
the stored `player1Time`/`player2Time` when `gameData` changes); the tick
recomputes only the mover's display from the stored value and the elapsed
time, then reports a timeout (`some true` = onTimeout('white'),
`some false` = onTimeout('black')) when a displayed time is ≤ 0.
No game document is written. -/
def clockTick (g : GameDoc) (turnWhite : Bool) (gameOver : Bool)
    (dispW dispB : Int) (now : Int) : Int × Int × Option Bool :=
  if g.status ≠ Status.active ∨ gameOver = true then (dispW, dispB, none)
  else
    let elapsed := now - g.lastMoveTimestamp
    let w := if turnWhite then max 0 (g.player1Time - elapsed) else dispW
    let b := if turnWhite then dispB else max 0 (g.player2Time - elapsed)
    (w, b, if w ≤ 0 then some true else if b ≤ 0 then some false else none)

/-- The four buttons of `GameActions`. -/
inductive GAction where
  | offerDraw
  | acceptDraw
  | declineDraw
  | resign
deriving DecidableEq, Repr

/-- `GameActions` (App.jsx lines 558-610). The component renders nothing
(every action unavailable) unless `status === 'active'`; with a pending
offer from the opponent only Accept/Decline are rendered; with one's own
offer pending nothing is rendered; otherwise Offer Draw and Resign are.
`none` models an unavailable (rejected) action; `some g'` the update the
corresponding handler writes. -/
def gameAction (g : GameDoc) (k : PlayerKey) (a : GAction) : Option GameDoc :=
  if g.status ≠ Status.active then none
  else
    match a with
    | .resign =>
      if g.drawOffer = none then
        some { g with
          status := Status.finished
          winner := if k = PlayerKey.player1 then g.player2 else g.player1
          winReason := some reasonResignation }
      else none
    | .offerDraw =>
      if g.drawOffer = none then some { g with drawOffer := some k } else none
    | .acceptDraw =>
      if g.drawOffer = some k.other then
        some { g with
          status := Status.finished
          winner := none
          winReason := some reasonDrawAgreement
          drawOffer := none }
      else none
    | .declineDraw =>
      if g.drawOffer = some k.other then some { g with drawOffer := none } else none

/-- The turn test of `onDrop` (App.jsx lines 1171-1177). -/
def isMyTurn (g : GameDoc) (uid : String) (turnWhite : Bool) : Bool :=
  (g.mode == modeComputer && turnWhite) || (g.mode == modeOffline) ||
    (g.mode == modeOnline &&
      ((g.player1.map Player.uid == some uid && turnWhite) ||
       (g.player2.map Player.uid == some uid && !turnWhite)))

/-- `onDrop` (App.jsx lines 1164-1199) as a state transformer: `none` means
the drop returned false with no write to the game state; `some g'` means
`makeMove` was reached and wrote `g'`. `engineFind` is the chess.js lookup
`moves.find(m => m.to === targetSquare)` (`none` = no legal move); a
promotion-flagged move only opens the dialog and writes nothing. -/
def onDrop (g : GameDoc) (uid : String) (turnWhite : Bool) (promotionPending : Bool)
    (engineFind : Option EngineMove) (now : Int) : Option GameDoc :=
  if g.status ≠ Status.active ∨ promotionPending = true then none
  else if isMyTurn g uid turnWhite = false then none
  else
    match engineFind with
    | none => none
    | some em => if em.promoFlag then none else makeMove g (some em) now

/-- The result of one responder pass over a signaling snapshot. -/
structure RespResult where
  sig : WebrtcSignals
  remoteDescSet : Bool
  published : Bool
deriving DecidableEq, Repr

/-- The responder (player2) branch of the `VideoChat` snapshot handler
(App.jsx lines 741-752): an answer is produced and published only when an
offer is present, no answer is stored yet, and the local peer connection
has no remote description yet (`remoteDescSet`, the once-guard set by
`setRemoteDescription` in the same pass). -/
def responderStep (sig : WebrtcSignals) (remoteDescSet : Bool) (ans : String) : RespResult :=
  if sig.offer ≠ none ∧ sig.answer = none ∧ remoteDescSet = false then
    ⟨{ sig with answer := some ans }, true, true⟩
  else ⟨sig, remoteDescSet, false⟩

/-- The initiator (player1) branch (App.jsx lines 777-789): publish an
offer only when none is stored yet. The Bool reports whether a publish
happened. -/
def initiatorStep (sig : WebrtcSignals) (off : String) : WebrtcSignals × Bool :=
  if sig.offer = none then ({ sig with offer := some off }, true) else (sig, false)

/-- `onicecandidate` (App.jsx lines 727-733): arrayUnion of a tagged
candidate. -/
def publishCandidate (sig : WebrtcSignals) (c : IceCandidate) : WebrtcSignals :=
  { sig with iceCandidates := sig.iceCandidates ++ [c] }

/-- Signaling states reachable from the initial
`{ offer: null, answer: null, iceCandidates: [] }` written at game
creation, under initiator publishes, responder passes, and candidate
publishes. The Bool is the responder's local remote-description guard. -/
inductive SigReachable : WebrtcSignals → Bool → Prop where
  | init : SigReachable ⟨none, none, []⟩ false
  | initiator (off : String) : SigReachable s b → SigReachable (initiatorStep s off).1 b
  | responder (ans : String) : SigReachable s b →
      SigReachable (responderStep s b ans).sig (responderStep s b ans).remoteDescSet
  | candidate (c : IceCandidate) : SigReachable s b → SigReachable (publishCandidate s c) b

/-- The two branches of `handleRematch`. -/
inductive RematchAction where
  | accept
  | offer
deriving DecidableEq, Repr

/-- The brand-new game `handleRematch('accept')` creates (App.jsx lines
1311-1330): the old document spread with fresh board, logs, clocks from
`timeControl`, swapped player slots, and status 'active'. -/
def rematchNewGame (g : GameDoc) (now : Int) : GameDoc :=
  { g with
    fen := initialFen
    moves := []
    chatMessages := []
    capturedPieces := ⟨[], []⟩
    status := Status.active
    winner := none
    winReason := none
    drawOffer := none
    rematchOffer := none
    createdAt := now
    lastMoveTimestamp := now
    player1 := g.player2
    player2 := g.player1
    playerIds := [playerUid g.player2, playerUid g.player1]
    player1Time := g.timeControl
    player2Time := g.timeControl }

/-- `handleRematch` (App.jsx lines 1300-1338): returns nothing for
non-online games; on 'accept' it creates the new game and stamps the old
document's `rematchedGameId`; otherwise it records the rematch offer. The
result is (document created, updated old document). -/
def handleRematch (g : GameDoc) (k : PlayerKey) (a : RematchAction)
    (newGameId : String) (now : Int) : Option (Option GameDoc × GameDoc) :=
  if g.mode ≠ modeOnline then none
  else
    match a with
    | .accept => some (some (rematchNewGame g now), { g with rematchedGameId := some newGameId })
    | .offer => some (none, { g with rematchOffer := some k })

/-- A `matchmaking_requests` document: `{ uid, email, timeControl,
createdAt }`, identified by its document id. -/
structure Ticket where
  id : String
  uid : String
  email : String
  timeControl : Int
  createdAt : Int
deriving DecidableEq, Repr

/-- The matchmaking collections the cloud function touches. -/
structure MMState where
  tickets : List Ticket
  games : List GameDoc
deriving DecidableEq, Repr

/-- `t.createdAt ≤ x.createdAt`-ordered insertion, modelling the
`orderBy('createdAt', 'asc')` of the partner query. -/
def insertByCreatedAt (t : Ticket) : List Ticket → List Ticket
  | [] => [t]
  | x :: xs => if t.createdAt ≤ x.createdAt then t :: x :: xs else x :: insertByCreatedAt t xs

/-- Stable sort by `createdAt`, modelling the partner query's ordering. -/
def sortByCreatedAt : List Ticket → List Ticket
  | [] => []
  | x :: xs => insertByCreatedAt x (sortByCreatedAt xs)

/-- The partner query of `onCreateMatchRequest` (part_000 lines 48-64):
requests with the same `timeControl`, oldest first, `limit(2)`, the
triggering document filtered out, first remaining document taken. -/
def findPartner (tickets : List Ticket) (reqId : String) (tc : Int) : Option Ticket :=
  ((((sortByCreatedAt (tickets.filter fun t => t.timeControl == tc)).take 2).filter
      fun t => t.id ≠ reqId)).head?

/-- The game document the pairing transaction creates (part_000 lines
79-112): randomized color assignment (`assignWhite` is the
`Math.random() < 0.5` draw), both clocks set to the triggering request's
`timeControl`, status 'active'. -/
def pairedGame (req partner : Ticket) (assignWhite : Bool) (now : Int) : GameDoc :=
  let whiteT := if assignWhite then req else partner
  let blackT := if assignWhite then partner else req
  { mode := modeOnline
    timeControl := req.timeControl
    player1 := some ⟨whiteT.uid, whiteT.email⟩
    player2 := some ⟨blackT.uid, blackT.email⟩
    playerIds := [whiteT.uid, blackT.uid]
    fen := initialFen
    moves := []
    chatMessages := []
    capturedPieces := ⟨[], []⟩
    status := Status.active
    winner := none
    winReason := none
    drawOffer := none
    rematchOffer := none
    rematchedGameId := none
    webrtc := ⟨none, none, []⟩
    createdAt := now
    player1Time := req.timeControl
    player2Time := req.timeControl
    lastMoveTimestamp := now
    lastMove := none }

/-- Whether a ticket with the given id still exists (the `tx.get` existence
checks at part_000 lines 73-77). -/
def ticketExists (st : MMState) (tid : String) : Bool :=
  st.tickets.any fun t => t.id == tid

/-- The pairing transaction (part_000 lines 69-117), applied to the store
state at transaction read time: if either request document has vanished the
transaction returns with no effect at all; otherwise it creates the game
and deletes both request documents in the same atomic commit. -/
def pairTransaction (st : MMState) (req partner : Ticket) (assignWhite : Bool)
    (now : Int) : MMState :=
  if ticketExists st req.id && ticketExists st partner.id then
    { tickets := st.tickets.filter fun t => ¬(t.id = req.id ∨ t.id = partner.id)
      games := st.games ++ [pairedGame req partner assignWhite now] }
  else st

/-- The whole `onCreateMatchRequest` trigger: query on the state seen at
query time (`stq`), transaction against the possibly newer state `st`.
With no partner the function exits with no effect. -/
def onCreateMatchRequest (stq st : MMState) (req : Ticket) (assignWhite : Bool)
    (now : Int) : MMState :=
  match findPartner stq.tickets req.id req.timeControl with
  | none => st
  | some partner => pairTransaction st req partner assignWhite now

/-- `ChatBox.handleSendMessage`: arrayUnion on `chatMessages`. -/
def appendChat (g : GameDoc) (m : String) : GameDoc :=
  { g with chatMessages := g.chatMessages ++ [m] }

/-- Any update that only rewrites the `webrtc_signals` subtree (offer,
answer and candidate publishes all write only under that key). -/
def setSignals (g : GameDoc) (s : WebrtcSignals) : GameDoc :=
  { g with webrtc := s }

/-- One store write to a game document, as performed by the operations in
App.jsx. `join` is unguarded, exactly as `handleJoinGame` is: the lobby
offers Join from a possibly-stale snapshot and the write re-verifies
nothing, so a join can hit a document in any status. -/
inductive GameStep : GameDoc → GameDoc → Prop where
  | move (r : Option EngineMove) (now : Int) : makeMove g r now = some g' → GameStep g g'
  | timeout (w : Bool) : handleTimeout g w = some g' → GameStep g g'
  | action (k : PlayerKey) (a : GAction) : gameAction g k a = some g' → GameStep g g'
  | join (u : Player) (now : Int) : GameStep g (handleJoinGame g u now)
  | chat (m : String) : GameStep g (appendChat g m)
  | rematch (k : PlayerKey) (a : RematchAction) (nid : String) (now : Int)
      (gn : Option GameDoc) : handleRematch g k a nid now = some (gn, g') → GameStep g g'
  | signal (s : WebrtcSignals) : GameStep g (setSignals g s)

/-- Game documents reachable in the store: created from the lobby, created
by the pairing transaction, created by an accepted rematch, or obtained
from a reachable document by one of the modelled writes. -/
inductive GameReachable : GameDoc → Prop where
  | created (u : Player) (tc now : Int) : GameReachable (createGameDoc u tc now)
  | paired (req partner : Ticket) (aw : Bool) (now : Int) :
      GameReachable (pairedGame req partner aw now)
  | rematched (now : Int) : GameReachable g → GameReachable (rematchNewGame g now)
  | step : GameReachable g → GameStep g g' → GameReachable g'

/-- The invariant of claim C10: a non-null winner only on a finished game. -/
def winnerInv (g : GameDoc) : Prop :=
  g.winner.isSome = true → g.status = Status.finished

/-- A sample user. -/
def pAlice : Player := ⟨"alice", "alice@example.com"⟩

/-- A second sample user. -/
def pBob : Player := ⟨"bob", "bob@example.com"⟩

/-- A third sample user. -/
def pCarol : Player := ⟨"carol", "carol@example.com"⟩

/-- An online game both of whose slots are taken and which is under way. -/
def activeGameEx : GameDoc :=
  { createGameDoc pAlice 300 0 with
    player2 := some pBob
    playerIds := [pAlice.uid, pBob.uid]
    status := Status.active }

/-- A finished online game. -/
def finishedGameEx : GameDoc :=
  { activeGameEx with
    status := Status.finished
    winner := some pAlice
    winReason := some reasonCheckmate }

/-- An active game with a pending draw offer from slot player1. -/
def drawOfferGameEx : GameDoc :=
  { activeGameEx with drawOffer := some PlayerKey.player1 }

/-- The document `handleAcceptDraw` writes from `drawOfferGameEx`. -/
def acceptedDrawEx : GameDoc :=
  { drawOfferGameEx with
    status := Status.finished
    winner := none
    winReason := some reasonDrawAgreement
    drawOffer := none }

/-- A sample accepted engine move (a quiet, non-terminal move). -/
def emEx : EngineMove :=
  ⟨"e4", "e2", "e4", true, none, "fen-after-e4", false, false, false⟩

/-- A sample matchmaking ticket. -/
def tAliceEx : Ticket := ⟨"req1", "alice", "alice@example.com", 300, 10⟩

/-- A second sample matchmaking ticket with the same time control. -/
def tBobEx : Ticket := ⟨"req2", "bob", "bob@example.com", 300, 20⟩

/-- A matchmaking store holding the two sample tickets and no games. -/
def mmEx : MMState := ⟨[tAliceEx, tBobEx], []⟩

/-- A sample offer payload. -/
def offerEx : String := "offer-sdp"

/-- A sample answer payload. -/
def answerEx : String := "answer-sdp"

/-- A sample id for a rematch game. -/
def newIdEx : String := "rematch-game-1"

/-- A created game joined by the second player. -/
def joinedGameEx : GameDoc := handleJoinGame (createGameDoc pAlice 300 0) pBob 1

/-- The joined game finished by a timeout of white (winner pBob). -/
def timeoutFinishedEx : GameDoc :=
  { joinedGameEx with
    status := Status.finished
    winner := joinedGameEx.player2
    winReason := some reasonTimeout }

/-- A stale join hitting the finished game: `handleJoinGame` re-verifies
nothing, so the document comes back 'active' with its winner still set. -/
def staleJoinedGameEx : GameDoc := handleJoinGame timeoutFinishedEx pCarol 9

/-- C1: on an active online game, an engine-accepted move overwrites the
stored fen with the post-move position, appends exactly one move entry
whose moveNumber is the previous length + 1, clears any pending draw
offer, and on a terminal position finishes the game with the mover's
player record as winner on checkmate and a null winner otherwise. -/
theorem C1_makeMove_accepted (g : GameDoc) (em : EngineMove) (now : Int)
    (_hact : g.status = Status.active) (hmode : g.mode = modeOnline) :
    ∃ g', makeMove g (some em) now = some g' ∧
      g'.fen = em.newFen ∧
      (∃ mv : MoveEntry, g'.moves = g.moves ++ [mv] ∧ mv.moveNumber = g.moves.length + 1) ∧
      g'.moves.length = g.moves.length + 1 ∧
      g'.drawOffer = none ∧
      (em.isGameOver = true →
        g'.status = Status.finished ∧
        (em.isCheckmate = true → g'.winner = moverPlayer g em.colorWhite) ∧
        (em.isCheckmate = false → g'.winner = none)) ∧
      (em.isGameOver = false → g'.status = Status.active) := by
  simp only [makeMove]
  rw [if_pos hmode]
  refine ⟨_, rfl, rfl, ⟨_, rfl, rfl⟩, by simp, rfl, ?_, ?_⟩
  · intro hover
    refine ⟨by simp [hover], fun hc => by simp [hover, hc], fun hc => by simp [hc]⟩
  · intro hover
    simp [hover]

/-- Claim C1 witness: the accepted-move update evaluated on a concrete
active online game. -/
theorem C1_witness :
    ∃ g', makeMove activeGameEx (some emEx) 5 = some g' ∧
      g'.fen = emEx.newFen ∧
      (∃ mv : MoveEntry,
        g'.moves = activeGameEx.moves ++ [mv] ∧
        mv.moveNumber = activeGameEx.moves.length + 1) ∧
      g'.moves.length = activeGameEx.moves.length + 1 ∧
      g'.drawOffer = none ∧
      (emEx.isGameOver = true →
        g'.status = Status.finished ∧
        (emEx.isCheckmate = true → g'.winner = moverPlayer activeGameEx emEx.colorWhite) ∧
        (emEx.isCheckmate = false → g'.winner = none)) ∧
      (emEx.isGameOver = false → g'.status = Status.active) :=
  C1_makeMove_accepted activeGameEx emEx 5 rfl rfl

/-- C2: the claim says joining an open game is an atomic re-verifying claim
transaction; `handleJoinGame` is in fact a plain `getDoc` followed by an
unconditional `updateDoc`. Evaluated on a game that is already active with
both slots taken, the join still overwrites `player2` and re-stamps
`status: 'active'` with nothing re-verified. -/
theorem C2_join_unconditional_overwrite :
    activeGameEx.status = Status.active ∧
    activeGameEx.player2 = some pBob ∧
    (handleJoinGame activeGameEx pCarol 5).player2 = some pCarol ∧
    (handleJoinGame activeGameEx pCarol 5).status = Status.active ∧
    (handleJoinGame activeGameEx pCarol 5).playerIds = [pAlice.uid, pCarol.uid] :=
  ⟨rfl, rfl, rfl, rfl, rfl⟩

/-- C4: a timeout report against an already-finished game is a silent
no-op; against any non-finished game it finishes the game crediting the
non-expired player with reason 'Timeout'. -/
theorem C4_timeout_idempotent (g : GameDoc) (w : Bool) :
    (g.status = Status.finished → handleTimeout g w = none) ∧
    (g.status ≠ Status.finished →
      handleTimeout g w =
        some { g with
          status := Status.finished
          winner := if w then g.player2 else g.player1
          winReason := some reasonTimeout }) := by
  constructor
  · intro h
    simp [handleTimeout, h]
  · intro h
    simp [handleTimeout, h]

/-- Claim C4 witness: a second report on a finished game changes nothing,
and a report on an active game finishes it. -/
theorem C4_witness :
    handleTimeout finishedGameEx true = none ∧
    handleTimeout activeGameEx true =
      some { activeGameEx with
        status := Status.finished
        winner := if true then activeGameEx.player2 else activeGameEx.player1
        winReason := some reasonTimeout } :=
  ⟨(C4_timeout_idempotent finishedGameEx true).1 rfl,
   (C4_timeout_idempotent activeGameEx true).2 (by decide)⟩

/-- C5: one clock tick on an active, non-terminal game recomputes only the
mover's displayed time as the stored time minus the elapsed time since
`lastMoveTimestamp`, floored at 0, leaves the other player's display at
its stored value, persists nothing, and invokes the timeout callback
whenever a displayed time is ≤ 0 (white checked first). -/
theorem C5_clock_pure_derivation (g : GameDoc) (turnWhite : Bool)
    (dispW dispB now : Int) (hact : g.status = Status.active)
    (hw : dispW = g.player1Time) (hb : dispB = g.player2Time) :
    (turnWhite = true →
      (clockTick g turnWhite false dispW dispB now).1 =
        max 0 (g.player1Time - (now - g.lastMoveTimestamp)) ∧
      (clockTick g turnWhite false dispW dispB now).2.1 = g.player2Time) ∧
    (turnWhite = false →
      (clockTick g turnWhite false dispW dispB now).2.1 =
        max 0 (g.player2Time - (now - g.lastMoveTimestamp)) ∧
      (clockTick g turnWhite false dispW dispB now).1 = g.player1Time) ∧
    ((clockTick g turnWhite false dispW dispB now).1 ≤ 0 →
      (clockTick g turnWhite false dispW dispB now).2.2 = some true) ∧
    (0 < (clockTick g turnWhite false dispW dispB now).1 →
      (clockTick g turnWhite false dispW dispB now).2.1 ≤ 0 →
      (clockTick g turnWhite false dispW dispB now).2.2 = some false) ∧
    (0 < (clockTick g turnWhite false dispW dispB now).1 →
      0 < (clockTick g turnWhite false dispW dispB now).2.1 →
      (clockTick g turnWhite false dispW dispB now).2.2 = none) := by
  have hcond : ¬(g.status ≠ Status.active ∨ false = true) := by simp [hact]
  simp only [clockTick, if_neg hcond]
  cases turnWhite with
  | false =>
    refine ⟨by simp, fun _ => ⟨rfl, hw⟩, fun h => by rw [if_pos h], fun h1 h2 => ?_, fun h1 h2 => ?_⟩
    · rw [if_neg (not_le.mpr h1), if_pos h2]
    · rw [if_neg (not_le.mpr h1), if_neg (not_le.mpr h2)]
  | true =>
    refine ⟨fun _ => ⟨rfl, hb⟩, by simp, fun h => by rw [if_pos h], fun h1 h2 => ?_, fun h1 h2 => ?_⟩
    · rw [if_neg (not_le.mpr h1), if_pos h2]
    · rw [if_neg (not_le.mpr h1), if_neg (not_le.mpr h2)]

/-- Claim C5 witness: a tick on a concrete active game with white to move,
20 seconds elapsed. -/
theorem C5_witness :
    (true = true →
      (clockTick activeGameEx true false activeGameEx.player1Time activeGameEx.player2Time 20).1 =
        max 0 (activeGameEx.player1Time - (20 - activeGameEx.lastMoveTimestamp)) ∧
      (clockTick activeGameEx true false activeGameEx.player1Time activeGameEx.player2Time 20).2.1 =
        activeGameEx.player2Time) ∧
    (true = false →
      (clockTick activeGameEx true false activeGameEx.player1Time activeGameEx.player2Time 20).2.1 =
        max 0 (activeGameEx.player2Time - (20 - activeGameEx.lastMoveTimestamp)) ∧
      (clockTick activeGameEx true false activeGameEx.player1Time activeGameEx.player2Time 20).1 =
        activeGameEx.player1Time) ∧
    ((clockTick activeGameEx true false activeGameEx.player1Time activeGameEx.player2Time 20).1 ≤ 0 →
      (clockTick activeGameEx true false activeGameEx.player1Time activeGameEx.player2Time 20).2.2 =
        some true) ∧
    (0 < (clockTick activeGameEx true false activeGameEx.player1Time activeGameEx.player2Time 20).1 →
      (clockTick activeGameEx true false activeGameEx.player1Time activeGameEx.player2Time 20).2.1 ≤ 0 →
      (clockTick activeGameEx true false activeGameEx.player1Time activeGameEx.player2Time 20).2.2 =
        some false) ∧
    (0 < (clockTick activeGameEx true false activeGameEx.player1Time activeGameEx.player2Time 20).1 →
      0 < (clockTick activeGameEx true false activeGameEx.player1Time activeGameEx.player2Time 20).2.1 →
      (clockTick activeGameEx true false activeGameEx.player1Time activeGameEx.player2Time 20).2.2 =
        none) :=
  C5_clock_pure_derivation activeGameEx true activeGameEx.player1Time activeGameEx.player2Time 20
    rfl rfl rfl

/-- C6: every draw/resign action is unavailable (a no-op) unless the game
is active — in particular once it is finished — and accepting a draw
succeeds only against a pending offer from the other slot, in which case
the game finishes as a draw with a null winner. -/
theorem C6_draw_resign_guards (g : GameDoc) (k : PlayerKey) :
    (∀ a : GAction, g.status = Status.finished → gameAction g k a = none) ∧
    (∀ g', gameAction g k GAction.acceptDraw = some g' →
      g.drawOffer = some k.other ∧ g'.status = Status.finished ∧ g'.winner = none ∧
      g'.winReason = some reasonDrawAgreement ∧ g'.drawOffer = none) := by
  constructor
  · intro a h
    simp [gameAction, h]
  · intro g' h
    have key : gameAction g k GAction.acceptDraw =
        if g.status ≠ Status.active then none
        else if g.drawOffer = some k.other then
          some { g with
            status := Status.finished
            winner := none
            winReason := some reasonDrawAgreement
            drawOffer := none }
        else none := rfl
    rw [key] at h
    split at h
    · exact absurd h (by simp)
    · split at h
      next hd =>
        injection h with h'
        subst h'
        exact ⟨hd, rfl, rfl, rfl, rfl⟩
      · exact absurd h (by simp)

/-- Claim C6 witness: a resign attempt on a finished game does nothing, and
accepting player1's pending offer as player2 finishes the game as a draw. -/
theorem C6_witness :
    gameAction finishedGameEx PlayerKey.player1 GAction.resign = none ∧
    (drawOfferGameEx.drawOffer = some PlayerKey.player2.other ∧
     acceptedDrawEx.status = Status.finished ∧ acceptedDrawEx.winner = none ∧
     acceptedDrawEx.winReason = some reasonDrawAgreement ∧ acceptedDrawEx.drawOffer = none) :=
  ⟨(C6_draw_resign_guards finishedGameEx PlayerKey.player1).1 GAction.resign rfl,
   (C6_draw_resign_guards drawOfferGameEx PlayerKey.player2).2 acceptedDrawEx (by rfl)⟩

/-- C7: a rejected drop — game not active, not the actor's turn, or no
legal engine move to the target — writes nothing and reports failure, and
`makeMove` on an engine-rejected move likewise returns null with no
write. -/
theorem C7_rejected_move_untouched (g : GameDoc) (uid : String)
    (turnWhite promo : Bool) (ef : Option EngineMove) (now : Int)
    (h : g.status ≠ Status.active ∨ isMyTurn g uid turnWhite = false ∨ ef = none) :
    onDrop g uid turnWhite promo ef now = none ∧ makeMove g none now = none := by
  refine ⟨?_, rfl⟩
  unfold onDrop
  rcases h with h | h | h
  · simp [h]
  · simp [h]
  · subst h
    simp

/-- Claim C7 witness: dropping a piece on a finished game is rejected with
no state change. -/
theorem C7_witness :
    (finishedGameEx.status ≠ Status.active ∨
      isMyTurn finishedGameEx pAlice.uid true = false ∨ (none : Option EngineMove) = none) ∧
    (onDrop finishedGameEx pAlice.uid true false none 5 = none ∧
      makeMove finishedGameEx none 5 = none) :=
  ⟨Or.inl (by decide),
   C7_rejected_move_untouched finishedGameEx pAlice.uid true false none 5 (Or.inl (by decide))⟩

/-- C9: accepting a rematch on an online game creates a brand-new game with
the two slots swapped, both clocks reset to the game's timeControl, empty
move log, chat and captures, status 'active', and stamps the original
document's `rematchedGameId` with the new game's id. -/
theorem C9_rematch_swaps_and_stamps (g : GameDoc) (k : PlayerKey)
    (newGameId : String) (now : Int) (hmode : g.mode = modeOnline) :
    handleRematch g k RematchAction.accept newGameId now =
      some (some (rematchNewGame g now), { g with rematchedGameId := some newGameId }) ∧
    (rematchNewGame g now).player1 = g.player2 ∧
    (rematchNewGame g now).player2 = g.player1 ∧
    (rematchNewGame g now).player1Time = g.timeControl ∧
    (rematchNewGame g now).player2Time = g.timeControl ∧
    (rematchNewGame g now).moves = [] ∧
    (rematchNewGame g now).chatMessages = [] ∧
    (rematchNewGame g now).capturedPieces = ⟨[], []⟩ ∧
    (rematchNewGame g now).status = Status.active := by
  refine ⟨?_, rfl, rfl, rfl, rfl, rfl, rfl, rfl, rfl⟩
  simp [handleRematch, hmode]

/-- Claim C9 witness: the rematch update evaluated on a concrete finished
online game. -/
theorem C9_witness :
    handleRematch finishedGameEx PlayerKey.player1 RematchAction.accept newIdEx 7 =
      some (some (rematchNewGame finishedGameEx 7),
        { finishedGameEx with rematchedGameId := some newIdEx }) ∧
    (rematchNewGame finishedGameEx 7).player1 = finishedGameEx.player2 ∧
    (rematchNewGame finishedGameEx 7).player2 = finishedGameEx.player1 ∧
    (rematchNewGame finishedGameEx 7).player1Time = finishedGameEx.timeControl ∧
    (rematchNewGame finishedGameEx 7).player2Time = finishedGameEx.timeControl ∧
    (rematchNewGame finishedGameEx 7).moves = [] ∧
    (rematchNewGame finishedGameEx 7).chatMessages = [] ∧
    (rematchNewGame finishedGameEx 7).capturedPieces = ⟨[], []⟩ ∧
    (rematchNewGame finishedGameEx 7).status = Status.active :=
  C9_rematch_swaps_and_stamps finishedGameEx PlayerKey.player1 newIdEx 7 rfl

/-- Membership in an ordered insertion. -/
theorem mem_insertByCreatedAt {a t : Ticket} {l : List Ticket}
    (h : a ∈ insertByCreatedAt t l) : a = t ∨ a ∈ l := by
  induction l with
  | nil => simpa [insertByCreatedAt] using h
  | cons x xs ih =>
    unfold insertByCreatedAt at h
    split at h
    · rcases List.mem_cons.mp h with h | h
      · exact Or.inl h
      · exact Or.inr h
    · rcases List.mem_cons.mp h with h | h
      · exact Or.inr (List.mem_cons.mpr (Or.inl h))
      · rcases ih h with h | h
        · exact Or.inl h
        · exact Or.inr (List.mem_cons.mpr (Or.inr h))

/-- Sorting by creation time introduces no new elements. -/
theorem mem_sortByCreatedAt {a : Ticket} {l : List Ticket}
    (h : a ∈ sortByCreatedAt l) : a ∈ l := by
  induction l with
  | nil =>
    simp [sortByCreatedAt] at h
  | cons x xs ih =>
    unfold sortByCreatedAt at h
    rcases mem_insertByCreatedAt h with h | h
    · exact List.mem_cons.mpr (Or.inl h)
    · exact List.mem_cons.mpr (Or.inr (ih h))

/-- The head of a list, when present, is a member. -/
theorem mem_of_head_eq_some {α : Type} {l : List α} {a : α}
    (h : l.head? = some a) : a ∈ l := by
  cases l with
  | nil => cases h
  | cons x xs =>
    rw [List.head?_cons] at h
    rw [Option.some.injEq] at h
    exact List.mem_cons.mpr (Or.inl h.symm)

/-- C3: a partner found by the pairing query is a distinct request with the
same time control; when both request documents still exist at transaction
read time the transaction creates exactly one new active game containing
both requesters (colors by the random draw, both clocks from the
triggering request's timeControl) and deletes both requests atomically;
when either request has vanished the transaction leaves the store
untouched — no partial effect. -/
theorem C3_pairing_atomic (stq st : MMState) (req partner : Ticket)
    (assignWhite : Bool) (now : Int) :
    (findPartner stq.tickets req.id req.timeControl = some partner →
      partner.timeControl = req.timeControl ∧ partner.id ≠ req.id ∧ partner ∈ stq.tickets) ∧
    (ticketExists st req.id = true ∧ ticketExists st partner.id = true →
      pairTransaction st req partner assignWhite now =
        ⟨st.tickets.filter fun t => ¬(t.id = req.id ∨ t.id = partner.id),
         st.games ++ [pairedGame req partner assignWhite now]⟩ ∧
      (pairTransaction st req partner assignWhite now).games.length = st.games.length + 1 ∧
      (pairedGame req partner assignWhite now).status = Status.active ∧
      (pairedGame req partner assignWhite now).playerIds =
        (if assignWhite then [req.uid, partner.uid] else [partner.uid, req.uid]) ∧
      (pairedGame req partner assignWhite now).player1Time = req.timeControl ∧
      (pairedGame req partner assignWhite now).player2Time = req.timeControl) ∧
    (¬(ticketExists st req.id = true ∧ ticketExists st partner.id = true) →
      pairTransaction st req partner assignWhite now = st) := by
  refine ⟨?_, ?_, ?_⟩
  · intro h
    have hmem := mem_of_head_eq_some h
    rw [List.mem_filter] at hmem
    obtain ⟨hmem1, hid⟩ := hmem
    have hmem2 := List.take_subset _ _ hmem1
    have hmem3 := mem_sortByCreatedAt hmem2
    rw [List.mem_filter] at hmem3
    exact ⟨eq_of_beq hmem3.2, of_decide_eq_true hid, hmem3.1⟩
  · rintro ⟨h1, h2⟩
    refine ⟨?_, ?_, rfl, ?_, rfl, rfl⟩
    · simp [pairTransaction, h1, h2]
    · simp [pairTransaction, h1, h2]
    · cases assignWhite <;> rfl
  · intro h
    have hc : ¬(ticketExists st req.id && ticketExists st partner.id) = true := by
      simpa [Bool.and_eq_true] using h
    simp [pairTransaction, hc]

/-- Claim C3 witness: two concrete tickets with timeControl 300 are paired
into one active game and both deleted. -/
theorem C3_witness :
    pairTransaction mmEx tAliceEx tBobEx true 0 =
      ⟨mmEx.tickets.filter fun t => ¬(t.id = tAliceEx.id ∨ t.id = tBobEx.id),
       mmEx.games ++ [pairedGame tAliceEx tBobEx true 0]⟩ ∧
    (pairTransaction mmEx tAliceEx tBobEx true 0).games.length = mmEx.games.length + 1 ∧
    (pairedGame tAliceEx tBobEx true 0).status = Status.active ∧
    (pairedGame tAliceEx tBobEx true 0).playerIds =
      (if true then [tAliceEx.uid, tBobEx.uid] else [tBobEx.uid, tAliceEx.uid]) ∧
    (pairedGame tAliceEx tBobEx true 0).player1Time = tAliceEx.timeControl ∧
    (pairedGame tAliceEx tBobEx true 0).player2Time = tAliceEx.timeControl :=
  (C3_pairing_atomic mmEx mmEx tAliceEx tBobEx true 0).2.1 ⟨by decide, by decide⟩

/-- In every reachable signaling state, a stored answer implies a stored
offer. -/
theorem sig_answer_needs_offer {s : WebrtcSignals} {b : Bool}
    (h : SigReachable s b) : s.answer ≠ none → s.offer ≠ none := by
  induction h with
  | init => simp
  | initiator off _ ih =>
    unfold initiatorStep
    split
    · intro _
      simp
    · exact ih
  | responder ans _ ih =>
    unfold responderStep
    split
    next hc => exact fun _ => hc.1
    · exact ih
  | candidate c _ ih => exact ih

/-- C8: the responder publishes an answer only when an offer is stored, no
answer is stored, and its local once-guard is unset; a successful publish
flips the guard so a second pass never publishes again; consequently in
every reachable signaling state a non-null answer implies a non-null
offer. -/
theorem C8_signal_answer_guard :
    (∀ (s : WebrtcSignals) (b : Bool), SigReachable s b → s.answer ≠ none → s.offer ≠ none) ∧
    (∀ (s : WebrtcSignals) (b : Bool) (ans : String),
      (responderStep s b ans).published = true →
      s.offer ≠ none ∧ s.answer = none ∧ b = false) ∧
    (∀ (s : WebrtcSignals) (b : Bool) (ans ans2 : String),
      (responderStep s b ans).published = true →
      (responderStep (responderStep s b ans).sig
        (responderStep s b ans).remoteDescSet ans2).published = false) := by
  refine ⟨fun s b h => sig_answer_needs_offer h, ?_, ?_⟩
  · intro s b ans h
    unfold responderStep at h
    split at h
    next hc => exact hc
    · exact absurd h (by simp)
  · intro s b ans ans2 h
    by_cases hc : s.offer ≠ none ∧ s.answer = none ∧ b = false
    · simp [responderStep, hc]
    · simp [responderStep, hc] at h

/-- Claim C8 witness: from the initial signaling state, after the initiator
publishes and the responder answers, the stored offer is non-null. -/
theorem C8_witness :
    (responderStep (initiatorStep ⟨none, none, []⟩ offerEx).1 false answerEx).sig.offer ≠ none :=
  C8_signal_answer_guard.1 _ _
    (SigReachable.responder answerEx (SigReachable.initiator offerEx SigReachable.init))
    (by decide)

/-- An accepted move always writes winner and status together: a non-null
winner only with a finished status. -/
theorem winnerInv_of_makeMove {g g' : GameDoc} {r : Option EngineMove} {now : Int}
    (h : makeMove g r now = some g') : winnerInv g' := by
  cases r with
  | none => exact absurd h (by simp [makeMove])
  | some em =>
    simp only [makeMove] at h
    split at h
    all_goals
      injection h with h'
      subst h'
      intro hw
      by_cases hg : em.isGameOver = true
      · simp [hg]
      · exact absurd hw (by simp [hg])

/-- A timeout report that writes at all writes a finished status. -/
theorem winnerInv_of_timeout {g g' : GameDoc} {w : Bool}
    (h : handleTimeout g w = some g') : winnerInv g' := by
  unfold handleTimeout at h
  split at h
  · exact absurd h (by simp)
  · injection h with h'
    subst h'
    exact fun _ => rfl

/-- Draw and resign writes preserve the winner-only-when-finished
invariant. -/
theorem winnerInv_of_action {g g' : GameDoc} {k : PlayerKey} {a : GAction}
    (h : gameAction g k a = some g') (hInv : winnerInv g) : winnerInv g' := by
  cases a with
  | resign =>
    have key : gameAction g k GAction.resign =
        if g.status ≠ Status.active then none
        else if g.drawOffer = none then
          some { g with
            status := Status.finished
            winner := if k = PlayerKey.player1 then g.player2 else g.player1
            winReason := some reasonResignation }
        else none := rfl
    rw [key] at h
    split at h
    · exact absurd h (by simp)
    · split at h
      · injection h with h'
        subst h'
        exact fun _ => rfl
      · exact absurd h (by simp)
  | offerDraw =>
    have key : gameAction g k GAction.offerDraw =
        if g.status ≠ Status.active then none
        else if g.drawOffer = none then some { g with drawOffer := some k } else none := rfl
    rw [key] at h
    split at h
    · exact absurd h (by simp)
    · split at h
      · injection h with h'
        subst h'
        exact fun hw => hInv hw
      · exact absurd h (by simp)
  | acceptDraw =>
    have key : gameAction g k GAction.acceptDraw =
        if g.status ≠ Status.active then none
        else if g.drawOffer = some k.other then
          some { g with
            status := Status.finished
            winner := none
            winReason := some reasonDrawAgreement
            drawOffer := none }
        else none := rfl
    rw [key] at h
    split at h
    · exact absurd h (by simp)
    · split at h
      · injection h with h'
        subst h'
        exact fun _ => rfl
      · exact absurd h (by simp)
  | declineDraw =>
    have key : gameAction g k GAction.declineDraw =
        if g.status ≠ Status.active then none
        else if g.drawOffer = some k.other then some { g with drawOffer := none } else none := rfl
    rw [key] at h
    split at h
    · exact absurd h (by simp)
    · split at h
      · injection h with h'
        subst h'
        exact fun hw => hInv hw
      · exact absurd h (by simp)

/-- A draw or resign write either leaves the winner field unchanged or
writes a finished status alongside it. -/
theorem winner_of_action {g g' : GameDoc} {k : PlayerKey} {a : GAction}
    (h : gameAction g k a = some g') : g'.winner = g.winner ∨ winnerInv g' := by
  cases a with
  | resign =>
    have key : gameAction g k GAction.resign =
        if g.status ≠ Status.active then none
        else if g.drawOffer = none then
          some { g with
            status := Status.finished
            winner := if k = PlayerKey.player1 then g.player2 else g.player1
            winReason := some reasonResignation }
        else none := rfl
    rw [key] at h
    split at h
    · exact absurd h (by simp)
    · split at h
      · injection h with h'
        subst h'
        exact Or.inr fun _ => rfl
      · exact absurd h (by simp)
  | offerDraw =>
    have key : gameAction g k GAction.offerDraw =
        if g.status ≠ Status.active then none
        else if g.drawOffer = none then some { g with drawOffer := some k } else none := rfl
    rw [key] at h
    split at h
    · exact absurd h (by simp)
    · split at h
      · injection h with h'
        subst h'
        exact Or.inl rfl
      · exact absurd h (by simp)
  | acceptDraw =>
    have key : gameAction g k GAction.acceptDraw =
        if g.status ≠ Status.active then none
        else if g.drawOffer = some k.other then
          some { g with
            status := Status.finished
            winner := none
            winReason := some reasonDrawAgreement
            drawOffer := none }
        else none := rfl
    rw [key] at h
    split at h
    · exact absurd h (by simp)
    · split at h
      · injection h with h'
        subst h'
        exact Or.inr fun _ => rfl
      · exact absurd h (by simp)
  | declineDraw =>
    have key : gameAction g k GAction.declineDraw =
        if g.status ≠ Status.active then none
        else if g.drawOffer = some k.other then some { g with drawOffer := none } else none := rfl
    rw [key] at h
    split at h
    · exact absurd h (by simp)
    · split at h
      · injection h with h'
        subst h'
        exact Or.inl rfl
      · exact absurd h (by simp)

/-- Rematch writes never touch the winner field of the old document. -/
theorem winner_of_rematch {g g' : GameDoc} {k : PlayerKey} {a : RematchAction}
    {nid : String} {now : Int} {gn : Option GameDoc}
    (h : handleRematch g k a nid now = some (gn, g')) : g'.winner = g.winner := by
  cases a with
  | accept =>
    have key : handleRematch g k RematchAction.accept nid now =
        if g.mode ≠ modeOnline then none
        else some (some (rematchNewGame g now), { g with rematchedGameId := some nid }) := rfl
    rw [key] at h
    split at h
    · exact absurd h (by simp)
    · injection h with h'
      rw [Prod.mk.injEq] at h'
      rw [← h'.2]
  | offer =>
    have key : handleRematch g k RematchAction.offer nid now =
        if g.mode ≠ modeOnline then none
        else some (none, { g with rematchOffer := some k }) := rfl
    rw [key] at h
    split at h
    · exact absurd h (by simp)
    · injection h with h'
      rw [Prod.mk.injEq] at h'
      rw [← h'.2]

/-- C10 counterexample: the claimed reachability invariant is false. A
created game is joined, finished by timeout (winner pBob), then hit by a
stale join: `handleJoinGame` re-verifies nothing, so the resulting
reachable document has winner pBob while its status is 'active'. -/
theorem C10_counterexample_stale_join :
    GameReachable staleJoinedGameEx ∧
    staleJoinedGameEx.winner = some pBob ∧
    staleJoinedGameEx.status = Status.active :=
  ⟨GameReachable.step
      (GameReachable.step
        (GameReachable.step (GameReachable.created pAlice 300 0) (GameStep.join pBob 1))
        (GameStep.timeout true rfl))
      (GameStep.join pCarol 9),
   rfl, rfl⟩

/-- C10 (amended): every operation that sets a non-null winner —
resignation, timeout, a terminal move — writes status 'finished' in the
same single update, and no store write ever changes a game's winner
without a finished status in that same write; the original reachability
invariant fails only through `handleJoinGame`, which performs no
re-verification and can re-activate a finished game with its winner left
in place. -/
theorem C10_winner_set_only_when_finishing :
    (∀ (g g' : GameDoc) (r : Option EngineMove) (now : Int),
      makeMove g r now = some g' → winnerInv g') ∧
    (∀ (g g' : GameDoc) (w : Bool), handleTimeout g w = some g' → winnerInv g') ∧
    (∀ (g g' : GameDoc) (k : PlayerKey) (a : GAction),
      gameAction g k a = some g' → winnerInv g → winnerInv g') ∧
    (∀ g g' : GameDoc, GameStep g g' → g'.winner = g.winner ∨ winnerInv g') := by
  refine ⟨fun g g' r now h => winnerInv_of_makeMove h,
          fun g g' w h => winnerInv_of_timeout h,
          fun g g' k a h hInv => winnerInv_of_action h hInv, ?_⟩
  intro g g' hs
  cases hs with
  | move r now h => exact Or.inr (winnerInv_of_makeMove h)
  | timeout w h => exact Or.inr (winnerInv_of_timeout h)
  | action k a h => exact winner_of_action h
  | join u now => exact Or.inl rfl
  | chat m => exact Or.inl rfl
  | rematch k a nid now gn h => exact Or.inl (winner_of_rematch h)
  | signal s => exact Or.inl rfl

/-- Claim C10 witness: the timeout finishing a concrete joined game writes
a non-null winner together with a finished status. -/
theorem C10_witness : winnerInv timeoutFinishedEx :=
  C10_winner_set_only_when_finishing.2.1 joinedGameEx timeoutFinishedEx true rfl

end Shatranj
